import Mathlib

/-!
Verification development for the StellarSave Soroban contracts.

Shallow embedding of the contract logic:
  - `CrossBorderYield` embeds src/soroban/contracts/cross-border-yield/lib.rs
  - `SavingsChallengeC` embeds src/soroban/contracts/savings-challenge/lib.rs
  - `SavingsTracker` embeds src/soroban/contracts/savings_challenge.rs
  - `RewardToken` embeds src/soroban/contracts/reward-token/lib.rs

Conventions: Soroban `Address` values are abstracted as `Nat` identifiers;
`i128` is modelled as `Int` (the operations under study stay far from the
128-bit range); `u64`/`u32` as `Nat`; Rust `/` and `%` on `i128` are the
truncating `Int.tdiv` / `Int.tmod`; a Rust panic (division by zero) is a
distinguished outcome that aborts the call.  Persistent storage maps are
association lists; `aset` overwrites the first binding of a key (appending
when absent) and `alookup` reads the first binding, matching map semantics.
Storage keys irrelevant to the verified operations (cross-border
transactions, exchange rates, MoneyGram corridors, event logs) are omitted.
-/

/-- Association-list lookup: first binding of the key, if any. -/
def alookup {α β : Type} [DecidableEq α] : List (α × β) → α → Option β
  | [], _ => none
  | (k, v) :: rest, a => if k = a then some v else alookup rest a

/-- Association-list update: overwrite the first binding of the key,
append a new binding when the key is absent. -/
def aset {α β : Type} [DecidableEq α] : List (α × β) → α → β → List (α × β)
  | [], a, b => [(a, b)]
  | (k, v) :: rest, a, b => if k = a then (a, b) :: rest else (k, v) :: aset rest a b

namespace CrossBorderYield

/-- Errors of the cross-border yield contract (`YieldError` in lib.rs). -/
inductive YieldError where
  | NotAuthorized
  | PoolNotFound
  | InsufficientBalance
  | PositionLocked
  | InvalidAmount
  | UnsupportedCorridor
  | ExchangeRateNotFound
  | TransactionNotFound
  | PoolInactive
  | MinDepositNotMet
  | MaxDepositExceeded
deriving Repr, DecidableEq

/-- `YieldPool` record (cross-border-yield/lib.rs, lines 14-29). -/
structure YieldPool where
  id : Nat
  name : String
  base_currency : String
  target_currency : String
  corridor : String
  total_deposited : Int
  total_yield_earned : Int
  apy_basis_points : Nat
  participants : List Nat
  is_active : Bool
  min_deposit : Int
  max_deposit : Int
  lock_duration : Nat
  moneygram_corridor_id : String
deriving Repr, DecidableEq

/-- `YieldPosition` record (cross-border-yield/lib.rs, lines 33-42). -/
structure YieldPosition where
  user : Nat
  pool_id : Nat
  principal : Int
  yield_earned : Int
  deposit_timestamp : Nat
  last_claim_timestamp : Nat
  lock_until : Nat
  auto_compound : Bool
deriving Repr, DecidableEq

/-- Storage under `DataKey::UserPositions`: user address to position vector. -/
abbrev PosStore := List (Nat × List YieldPosition)

/-- Storage under `DataKey::YieldPool`: pool id to pool record. -/
abbrev PoolStore := List (Nat × YieldPool)

/-- The user's position vector, `unwrap_or(Vec::new)` on absence. -/
def lookupPos (store : PosStore) (user : Nat) : List YieldPosition :=
  (alookup store user).getD []

/-- Contract storage relevant to pools, positions and global TVL. -/
structure YState where
  admin : Option Nat
  next_pool_id : Nat
  pools : PoolStore
  positions : PosStore
  tvl : Int
deriving Repr, DecidableEq

/-- The `initialize` entry point: sets admin, `NextPoolId = 1`, TVL 0. -/
def initializeState (admin : Nat) : YState :=
  { admin := some admin, next_pool_id := 1, pools := [], positions := [], tvl := 0 }

/-- The `create_yield_pool` entry point (lib.rs, lines 156-218).  The code
performs an admin check and then unconditionally creates the pool: it has
no validation of `min_deposit` / `max_deposit`. -/
def create_yield_pool (caller : Nat) (name base_currency target_currency corridor : String)
    (apy_basis_points : Nat) (min_deposit max_deposit : Int) (lock_duration : Nat)
    (moneygram_corridor_id : String) (s : YState) : Except YieldError (Nat × YState) :=
  match s.admin with
  | none => .error .NotAuthorized
  | some stored_admin =>
    if caller ≠ stored_admin then .error .NotAuthorized
    else
      let pool_id := s.next_pool_id
      let pool : YieldPool :=
        { id := pool_id, name := name, base_currency := base_currency,
          target_currency := target_currency, corridor := corridor,
          total_deposited := 0, total_yield_earned := 0,
          apy_basis_points := apy_basis_points, participants := [],
          is_active := true, min_deposit := min_deposit, max_deposit := max_deposit,
          lock_duration := lock_duration, moneygram_corridor_id := moneygram_corridor_id }
      .ok (pool_id,
        { s with pools := aset s.pools pool_id pool, next_pool_id := pool_id + 1 })

/-- The `deposit_to_pool` entry point (lib.rs, lines 221-289).  A fresh
`YieldPosition` is always pushed onto the user's position vector. -/
def deposit_to_pool (user : Nat) (pool_id : Nat) (amount : Int) (auto_compound : Bool)
    (now : Nat) (s : YState) : Except YieldError YState :=
  match alookup s.pools pool_id with
  | none => .error .PoolNotFound
  | some pool =>
    if pool.is_active = false then .error .PoolInactive
    else if amount < pool.min_deposit then .error .MinDepositNotMet
    else if pool.max_deposit < amount then .error .MaxDepositExceeded
    else
      let lock_until := now + pool.lock_duration
      let position : YieldPosition :=
        { user := user, pool_id := pool_id, principal := amount, yield_earned := 0,
          deposit_timestamp := now, last_claim_timestamp := now,
          lock_until := lock_until, auto_compound := auto_compound }
      let user_positions := lookupPos s.positions user ++ [position]
      let pool' : YieldPool :=
        { pool with total_deposited := pool.total_deposited + amount,
                    participants :=
                      if pool.participants.contains user then pool.participants
                      else pool.participants ++ [user] }
      .ok { s with positions := aset s.positions user user_positions,
                   pools := aset s.pools pool_id pool',
                   tvl := s.tvl + amount }

/-- Inner loop of `distribute_yield` over one user's position vector
(lib.rs, lines 318-329), threading `pool.total_deposited` (which the loop
itself mutates when auto-compounding).  `none` models the Rust panic on
division by zero. -/
def distribPositions (pool_id : Nat) (total_yield : Int) :
    Int → List YieldPosition → Option (Int × List YieldPosition)
  | td, [] => some (td, [])
  | td, position :: rest =>
    if position.pool_id = pool_id then
      if td = 0 then none
      else
        let user_share := Int.tdiv (position.principal * total_yield) td
        let position' := { position with yield_earned := position.yield_earned + user_share }
        if position.auto_compound then
          match distribPositions pool_id total_yield (td + user_share) rest with
          | none => none
          | some (td', rest') =>
            some (td', { position' with principal := position'.principal + user_share } :: rest')
        else
          match distribPositions pool_id total_yield td rest with
          | none => none
          | some (td', rest') => some (td', position' :: rest')
    else
      match distribPositions pool_id total_yield td rest with
      | none => none
      | some (td', rest') => some (td', position :: rest')

/-- Outer loop of `distribute_yield` over the pool's participants
(lib.rs, lines 313-332): each participant's vector is read, rewritten and
stored back. -/
def distribLoop (pool_id : Nat) (total_yield : Int) :
    Int → List Nat → PosStore → Option (Int × PosStore)
  | td, [], store => some (td, store)
  | td, participant :: rest, store =>
    match distribPositions pool_id total_yield td (lookupPos store participant) with
    | none => none
    | some (td', ups') =>
      distribLoop pool_id total_yield td' rest (aset store participant ups')

/-- Outcome of `distribute_yield`: success, a typed error, or a Rust panic
(division by zero inside the loop), which aborts and reverts the call. -/
inductive DistResult where
  | ok (s : YState)
  | err (e : YieldError)
  | panicked
deriving Repr, DecidableEq

/-- The `distribute_yield` entry point (lib.rs, lines 292-343).  Note there
is no guard on `pool.total_deposited = 0`: with an empty participant set the
call succeeds, otherwise the share division panics. -/
def distribute_yield (caller : Nat) (pool_id : Nat) (total_yield : Int) (s : YState) :
    DistResult :=
  match s.admin with
  | none => .err .NotAuthorized
  | some stored_admin =>
    if caller ≠ stored_admin then .err .NotAuthorized
    else match alookup s.pools pool_id with
    | none => .err .PoolNotFound
    | some pool =>
      match distribLoop pool_id total_yield pool.total_deposited pool.participants s.positions with
      | none => .panicked
      | some (td', store') =>
        let pool' : YieldPool :=
          { pool with total_deposited := td',
                      total_yield_earned := pool.total_yield_earned + total_yield }
        .ok { s with positions := store', pools := aset s.pools pool_id pool' }

/-- States reachable by initializing once and then running any sequence of
successful `create_yield_pool`, `deposit_to_pool` and `distribute_yield`
calls. -/
inductive Reach : YState → Prop where
  | init (admin : Nat) : Reach (initializeState admin)
  | create {s : YState} (caller : Nat) (name bc tc cor : String) (apy : Nat)
      (min_d max_d : Int) (lock : Nat) (mgid : String) {pid : Nat} {s' : YState}
      (h : Reach s)
      (hc : create_yield_pool caller name bc tc cor apy min_d max_d lock mgid s =
        .ok (pid, s')) : Reach s'
  | deposit {s : YState} (user pool_id : Nat) (amount : Int) (ac : Bool) (now : Nat)
      {s' : YState} (h : Reach s)
      (hd : deposit_to_pool user pool_id amount ac now s = .ok s') : Reach s'
  | distribute {s : YState} (caller pool_id : Nat) (total_yield : Int) {s' : YState}
      (h : Reach s)
      (hd : distribute_yield caller pool_id total_yield s = DistResult.ok s') : Reach s'

/-- Sum of `f` over the positions of one vector that reference pool `pid`. -/
def sumPosList (f : YieldPosition → Int) (pid : Nat) : List YieldPosition → Int
  | [] => 0
  | p :: rest => (if p.pool_id = pid then f p else 0) + sumPosList f pid rest

/-- Sum of `f` over all stored positions that reference pool `pid`. -/
def sumPosStore (f : YieldPosition → Int) (pid : Nat) : PosStore → Int
  | [] => 0
  | (_, l) :: rest => sumPosList f pid l + sumPosStore f pid rest

/-- Every stored position references a pool id below `n`. -/
def StoreIdsLt (n : Nat) (store : PosStore) : Prop :=
  ∀ e ∈ store, ∀ p ∈ e.2, p.pool_id < n

/-- Ledger invariant: each stored pool's `total_deposited` is the sum of the
principals of the positions referencing it, every stored pool id is below the
id counter, and so is every position's pool reference. -/
def Inv (s : YState) : Prop :=
  (∀ pid pool, alookup s.pools pid = some pool →
      pool.total_deposited = sumPosStore (fun p => p.principal) pid s.positions ∧
      pid < s.next_pool_id) ∧
  StoreIdsLt s.next_pool_id s.positions

end CrossBorderYield

namespace SavingsChallengeC

/-- Errors of the savings challenge contract (`SavingsError` in lib.rs). -/
inductive SavingsError where
  | NotAuthorized
  | ChallengeNotFound
  | ChallengeInactive
  | NotParticipant
  | InsufficientAmount
  | InvalidParameters
  | ChallengeExpired
  | AlreadyFinalized
  | GoalNotReached
  | ContributionTooEarly
deriving Repr, DecidableEq

/-- `SavingsChallenge` record (savings-challenge/lib.rs, lines 14-28). -/
structure SChallenge where
  id : Nat
  creator : Nat
  name : String
  description : String
  goal_amount : Int
  weekly_amount : Int
  current_amount : Int
  participants : List Nat
  created_at : Nat
  deadline : Nat
  is_active : Bool
  min_weekly_required : Bool
  allow_early_withdrawal : Bool
deriving Repr, DecidableEq

/-- `Contribution` record (savings-challenge/lib.rs, lines 32-37). -/
structure Contribution where
  contributor : Nat
  amount : Int
  timestamp : Nat
  week_number : Nat
deriving Repr, DecidableEq

/-- `ParticipantStats` record (savings-challenge/lib.rs, lines 41-46). -/
structure ParticipantStats where
  total_contributed : Int
  contribution_count : Nat
  last_contribution : Nat
  current_streak : Nat
deriving Repr, DecidableEq

/-- Contract storage for challenges, contributions and per-participant stats. -/
structure SCState where
  admin : Option Nat
  next_challenge_id : Nat
  challenges : List (Nat × SChallenge)
  contributions : List (Nat × List Contribution)
  stats : List ((Nat × Nat) × ParticipantStats)
deriving Repr, DecidableEq

/-- The `contribute` entry point (savings-challenge/lib.rs, lines 202-303).
The embedding reproduces the code's order of operations faithfully: in
particular `stats.last_contribution` is overwritten with `current_time`
(line 269) before the streak window test reads it (line 272). -/
def contribute (challenge_id contributor : Nat) (amount : Int) (now : Nat)
    (s : SCState) : Except SavingsError SCState :=
  if amount ≤ 0 then .error .InsufficientAmount
  else match alookup s.challenges challenge_id with
  | none => .error .ChallengeNotFound
  | some challenge =>
    if challenge.is_active = false then .error .ChallengeInactive
    else if challenge.deadline < now then .error .ChallengeExpired
    else if challenge.participants.contains contributor = false then .error .NotParticipant
    else
      let weeks_elapsed := (now - challenge.created_at) / (7 * 24 * 60 * 60)
      let week_number := weeks_elapsed + 1
      let contribution : Contribution :=
        { contributor := contributor, amount := amount, timestamp := now,
          week_number := week_number }
      let contributions := (alookup s.contributions challenge_id).getD [] ++ [contribution]
      let challenge' := { challenge with current_amount := challenge.current_amount + amount }
      let stats0 := (alookup s.stats (challenge_id, contributor)).getD
        { total_contributed := 0, contribution_count := 0,
          last_contribution := 0, current_streak := 0 }
      let stats1 :=
        { stats0 with total_contributed := stats0.total_contributed + amount,
                      contribution_count := stats0.contribution_count + 1,
                      last_contribution := now }
      let stats2 :=
        if 0 < stats1.last_contribution ∧ now - stats1.last_contribution ≤ 8 * 24 * 60 * 60 then
          { stats1 with current_streak := stats1.current_streak + 1 }
        else if stats1.contribution_count = 1 then
          { stats1 with current_streak := 1 }
        else
          { stats1 with current_streak := 1 }
      .ok { s with contributions := aset s.contributions challenge_id contributions,
                   challenges := aset s.challenges challenge_id challenge',
                   stats := aset s.stats (challenge_id, contributor) stats2 }

/-- The `finalize_challenge` entry point (savings-challenge/lib.rs, lines
306-349).  The authorization test precedes the `AlreadyFinalized` test. -/
def finalize_challenge (challenge_id finalizer : Nat) (now : Nat) (s : SCState) :
    Except SavingsError SCState :=
  match alookup s.challenges challenge_id with
  | none => .error .ChallengeNotFound
  | some challenge =>
    if challenge.creator ≠ finalizer ∧ challenge.participants.contains finalizer = false then
      .error .NotAuthorized
    else if challenge.is_active = false then .error .AlreadyFinalized
    else if ¬ challenge.goal_amount ≤ challenge.current_amount ∧ ¬ challenge.deadline < now then
      .error .InvalidParameters
    else
      .ok { s with challenges := aset s.challenges challenge_id { challenge with is_active := false } }

/-- The `set_challenge_active` entry point (savings-challenge/lib.rs, lines
434-463): the admin may set `is_active` to any value, including `true` on a
finalized challenge. -/
def set_challenge_active (challenge_id : Nat) (active : Bool) (caller : Nat)
    (s : SCState) : Except SavingsError SCState :=
  match s.admin with
  | none => .error .NotAuthorized
  | some stored_admin =>
    if caller ≠ stored_admin then .error .NotAuthorized
    else match alookup s.challenges challenge_id with
    | none => .error .ChallengeNotFound
    | some challenge =>
      .ok { s with challenges := aset s.challenges challenge_id { challenge with is_active := active } }

/-- The mutating operations on an existing challenge. -/
inductive SCOp where
  | contribute (challenge_id contributor : Nat) (amount : Int) (now : Nat)
  | finalize (challenge_id finalizer : Nat) (now : Nat)
  | set_active (challenge_id : Nat) (active : Bool) (caller : Nat)
deriving Repr, DecidableEq

/-- Dispatch one operation. -/
def scStep : SCOp → SCState → Except SavingsError SCState
  | .contribute cid u amt now, s => contribute cid u amt now s
  | .finalize cid f now, s => finalize_challenge cid f now s
  | .set_active cid active caller, s => set_challenge_active cid active caller s

/-- Example state: admin 0; challenge 1 with creator 0, participant 2, goal
200 of which 100 saved, deadline 50 already passed, still active. -/
def scEx0 : SCState :=
  { admin := some 0, next_challenge_id := 2,
    challenges := [(1,
      { id := 1, creator := 0, name := "trip", description := "fund",
        goal_amount := 200, weekly_amount := 10, current_amount := 100,
        participants := [2], created_at := 0, deadline := 50, is_active := true,
        min_weekly_required := false, allow_early_withdrawal := false })],
    contributions := [(1, [])],
    stats := [((1, 2),
      { total_contributed := 100, contribution_count := 1,
        last_contribution := 40, current_streak := 1 })] }

/-- `scEx0` after participant 2 finalized the expired challenge at time 100. -/
def scEx1 : SCState :=
  { scEx0 with challenges := [(1,
      { id := 1, creator := 0, name := "trip", description := "fund",
        goal_amount := 200, weekly_amount := 10, current_amount := 100,
        participants := [2], created_at := 0, deadline := 50, is_active := false,
        min_weekly_required := false, allow_early_withdrawal := false })] }

/-- Example state for the streak trace: challenge 1 with participant 2,
nothing contributed yet, generous goal and deadline. -/
def c3s0 : SCState :=
  { admin := some 0, next_challenge_id := 2,
    challenges := [(1,
      { id := 1, creator := 0, name := "save", description := "weekly",
        goal_amount := 1000000, weekly_amount := 10, current_amount := 0,
        participants := [2], created_at := 0, deadline := 10000000, is_active := true,
        min_weekly_required := false, allow_early_withdrawal := false })],
    contributions := [(1, [])],
    stats := [((1, 2),
      { total_contributed := 0, contribution_count := 0,
        last_contribution := 0, current_streak := 0 })] }

end SavingsChallengeC

namespace SavingsTracker

/-- `Milestone` record (savings_challenge.rs, lines 70-76); the `Symbol`
description is modelled as a string. -/
structure Milestone where
  description : String
  target_amount : Int
  reached : Bool
  reached_at : Nat
  reward_bonus : Nat
deriving Repr, DecidableEq

/-- `Deposit` record (savings_challenge.rs, lines 63-67). -/
structure Deposit where
  amount : Int
  timestamp : Nat
  week_number : Nat
deriving Repr, DecidableEq

/-- `UserProgress` record (savings_challenge.rs, lines 52-60). -/
structure UserProgress where
  challenge_id : Nat
  user : Nat
  current_amount : Int
  last_deposit_time : Nat
  streak_weeks : Nat
  deposits_history : List Deposit
  completed : Bool
deriving Repr, DecidableEq

/-- The helper `check_user_milestones` (savings_challenge.rs, lines 351-381):
each milestone that is not yet reached and whose target is covered by
`current_amount` is flagged reached with the current timestamp; every other
milestone is written back unchanged. -/
def check_user_milestones (now : Nat) (current_amount : Int)
    (milestones : List Milestone) : List Milestone :=
  milestones.map (fun milestone =>
    if milestone.reached = false ∧ milestone.target_amount ≤ current_amount then
      { milestone with reached := true, reached_at := now }
    else milestone)

/-- Total saved by the participants, `unwrap_or` a zeroed progress record
(savings_challenge.rs, lines 394-410). -/
def totalSaved (progress : List (Nat × UserProgress)) : List Nat → Int
  | [] => 0
  | participant :: rest =>
    ((alookup progress participant).map (fun up => up.current_amount)).getD 0 +
      totalSaved progress rest

/-- The helper `check_group_milestones` (savings_challenge.rs, lines
384-435): sums all participants' current amounts, then flags the group
milestones exactly as `check_user_milestones` does. -/
def check_group_milestones (now : Nat) (participants : List Nat)
    (progress : List (Nat × UserProgress)) (milestones : List Milestone) :
    List Milestone :=
  let total_saved := totalSaved progress participants
  milestones.map (fun milestone =>
    if milestone.reached = false ∧ milestone.target_amount ≤ total_saved then
      { milestone with reached := true, reached_at := now }
    else milestone)

end SavingsTracker

namespace RewardToken

/-- Errors of the SaveCoin token contract (`TokenError` in lib.rs). -/
inductive TokenError where
  | NotAuthorized
  | InsufficientBalance
  | InsufficientAllowance
  | InvalidAmount
  | InvalidAddress
  | AlreadyInitialized
  | NotInitialized
  | NotMinter
  | InvalidRewardType
  | RewardConfigNotSet
deriving Repr, DecidableEq

/-- `RewardType` (reward-token/lib.rs, lines 25-31). -/
inductive RewardType where
  | WeeklyContribution
  | MilestoneReached
  | ChallengeCompleted
  | StreakBonus
  | ReferralBonus
deriving Repr, DecidableEq

/-- `RewardConfig` record (reward-token/lib.rs, lines 86-94). -/
structure RewardConfig where
  base_weekly_reward : Int
  milestone_multiplier : Nat
  completion_multiplier : Nat
  streak_bonus_per_week : Int
  max_streak_bonus : Int
  referral_reward : Int
  min_contribution_for_reward : Int
deriving Repr, DecidableEq

/-- The default configuration installed by `initialize` (reward-token/lib.rs,
lines 138-146): amounts in stroops, 7 decimals. -/
def default_config : RewardConfig :=
  { base_weekly_reward := 100000000,
    milestone_multiplier := 15000,
    completion_multiplier := 20000,
    streak_bonus_per_week := 10000000,
    max_streak_bonus := 500000000,
    referral_reward := 250000000,
    min_contribution_for_reward := 100000000 }

/-- The `calculate_reward` entry point (reward-token/lib.rs, lines 413-453);
`config` is the stored `RewardConfig`, absent before initialization. -/
def calculate_reward (config : Option RewardConfig) (contribution_amount : Int)
    (reward_type : RewardType) (streak_weeks : Nat) : Except TokenError Int :=
  match config with
  | none => .error .RewardConfigNotSet
  | some config =>
    if contribution_amount < config.min_contribution_for_reward then .ok 0
    else
      let base_reward : Int :=
        match reward_type with
        | .WeeklyContribution => config.base_weekly_reward
        | .MilestoneReached =>
          Int.tdiv (config.base_weekly_reward * (config.milestone_multiplier : Int)) 10000
        | .ChallengeCompleted =>
          Int.tdiv (config.base_weekly_reward * (config.completion_multiplier : Int)) 10000
        | .StreakBonus =>
          min ((streak_weeks : Int) * config.streak_bonus_per_week) config.max_streak_bonus
        | .ReferralBonus => config.referral_reward
      let contribution_factor : Int :=
        if 1000000000 ≤ contribution_amount then 12000
        else if 500000000 ≤ contribution_amount then 11000
        else 10000
      .ok (Int.tdiv (base_reward * contribution_factor) 10000)

/-- Storage under `DataKey::Balance`: address to balance. -/
abbrev Balances := List (Nat × Int)

/-- The `balance` query (reward-token/lib.rs, lines 160-164):
`unwrap_or(0)` on absence. -/
def balance (balances : Balances) (id : Nat) : Int :=
  (alookup balances id).getD 0

/-- The `transfer` entry point (reward-token/lib.rs, lines 167-199).  The
recipient balance is read before either write, so a self-transfer's credit
write overwrites the debit write with the stale balance plus the amount. -/
def transfer (balances : Balances) (from_addr to_addr : Nat) (amount : Int) :
    Except TokenError Balances :=
  if amount < 0 then .error .InvalidAmount
  else if amount = 0 then .ok balances
  else
    let from_balance := balance balances from_addr
    if from_balance < amount then .error .InsufficientBalance
    else
      let to_balance := balance balances to_addr
      .ok (aset (aset balances from_addr (from_balance - amount)) to_addr (to_balance + amount))

/-- Sum of all stored balances. -/
def sumBalances : Balances → Int
  | [] => 0
  | (_, b) :: rest => b + sumBalances rest

end RewardToken

namespace CrossBorderYield

/-- Example pool: freshly created, no deposits yet. -/
def poolEx : YieldPool :=
  { id := 1, name := "p", base_currency := "USDC", target_currency := "NGN",
    corridor := "US-NG", total_deposited := 0, total_yield_earned := 0,
    apy_basis_points := 500, participants := [], is_active := true,
    min_deposit := 1, max_deposit := 1000, lock_duration := 0,
    moneygram_corridor_id := "MG" }

/-- Example state: admin 0, pool 1 just created (`total_deposited = 0`). -/
def c1s0 : YState :=
  { admin := some 0, next_pool_id := 2, pools := [(1, poolEx)],
    positions := [], tvl := 0 }

/-- `c1s0` after `distribute_yield(0, 1, 5)`: success, yield counter bumped. -/
def c1s1 : YState :=
  { admin := some 0, next_pool_id := 2,
    pools := [(1, { poolEx with total_yield_earned := 5 })],
    positions := [], tvl := 0 }

/-- The position produced by user 7 depositing 10 into pool 1 at time 0. -/
def depositPosEx : YieldPosition :=
  { user := 7, pool_id := 1, principal := 10, yield_earned := 0,
    deposit_timestamp := 0, last_claim_timestamp := 0, lock_until := 0,
    auto_compound := false }

/-- `c1s0` after one deposit of 10 by user 7. -/
def c4s1 : YState :=
  { admin := some 0, next_pool_id := 2,
    pools := [(1, { poolEx with total_deposited := 10, participants := [7] })],
    positions := [(7, [depositPosEx])], tvl := 10 }

/-- `c4s1` after a second identical deposit: two position records. -/
def c4s2 : YState :=
  { admin := some 0, next_pool_id := 2,
    pools := [(1, { poolEx with total_deposited := 20, participants := [7] })],
    positions := [(7, [depositPosEx, depositPosEx])], tvl := 20 }

/-- Pool created by the invariant witness trace. -/
def wpool : YieldPool :=
  { id := 1, name := "w", base_currency := "USD", target_currency := "NGN",
    corridor := "US-NG", total_deposited := 0, total_yield_earned := 0,
    apy_basis_points := 500, participants := [], is_active := true,
    min_deposit := 1, max_deposit := 1000, lock_duration := 0,
    moneygram_corridor_id := "MG" }

/-- State after `initialize(0)` and `create_yield_pool`. -/
def c2w1 : YState :=
  { admin := some 0, next_pool_id := 2, pools := [(1, wpool)],
    positions := [], tvl := 0 }

/-- `c2w1` after user 3 deposits 10 into pool 1. -/
def c2w2 : YState :=
  { admin := some 0, next_pool_id := 2,
    pools := [(1, { wpool with total_deposited := 10, participants := [3] })],
    positions := [(3, [{ user := 3, pool_id := 1, principal := 10, yield_earned := 0,
                         deposit_timestamp := 0, last_claim_timestamp := 0, lock_until := 0,
                         auto_compound := false }])],
    tvl := 10 }

/-- A plain position of principal 5 in pool 1, no auto-compounding. -/
def uniPos (u : Nat) : YieldPosition :=
  { user := u, pool_id := 1, principal := 5, yield_earned := 0,
    deposit_timestamp := 0, last_claim_timestamp := 0, lock_until := 0,
    auto_compound := false }

/-- Pool 1 with two equal participants holding 5 each. -/
def uniformPool : YieldPool :=
  { poolEx with total_deposited := 10, participants := [1, 2] }

/-- Uniform two-participant state for the rounding-law witness. -/
def c6s0 : YState :=
  { admin := some 0, next_pool_id := 2, pools := [(1, uniformPool)],
    positions := [(1, [uniPos 1]), (2, [uniPos 2])], tvl := 10 }

/-- Pool created with inverted deposit bounds (`min_deposit = 5 > 1 =
max_deposit`): the code accepts it. -/
def c7pool : YieldPool :=
  { id := 1, name := "p", base_currency := "USD", target_currency := "NGN",
    corridor := "US-NG", total_deposited := 0, total_yield_earned := 0,
    apy_basis_points := 500, participants := [], is_active := true,
    min_deposit := 5, max_deposit := 1, lock_duration := 0,
    moneygram_corridor_id := "MG" }

/-- State after creating `c7pool` from `initializeState 0`. -/
def c7s1 : YState :=
  { admin := some 0, next_pool_id := 2, pools := [(1, c7pool)],
    positions := [], tvl := 0 }

/-- The pool record `create_yield_pool` stores, exactly as built in
lib.rs lines 183-198. -/
def createdPool (pool_id : Nat) (name bc tc cor : String) (apy : Nat)
    (min_d max_d : Int) (lock : Nat) (mgid : String) : YieldPool :=
  { id := pool_id, name := name, base_currency := bc, target_currency := tc,
    corridor := cor, total_deposited := 0, total_yield_earned := 0,
    apy_basis_points := apy, participants := [], is_active := true,
    min_deposit := min_d, max_deposit := max_d, lock_duration := lock,
    moneygram_corridor_id := mgid }

end CrossBorderYield

namespace SavingsChallengeC

/-- `c3s0` after participant 2 contributes 10 at time 86400 (week 1). -/
def c3s1 : SCState :=
  { admin := some 0, next_challenge_id := 2,
    challenges := [(1,
      { id := 1, creator := 0, name := "save", description := "weekly",
        goal_amount := 1000000, weekly_amount := 10, current_amount := 10,
        participants := [2], created_at := 0, deadline := 10000000, is_active := true,
        min_weekly_required := false, allow_early_withdrawal := false })],
    contributions := [(1, [{ contributor := 2, amount := 10, timestamp := 86400,
                             week_number := 1 }])],
    stats := [((1, 2),
      { total_contributed := 10, contribution_count := 1,
        last_contribution := 86400, current_streak := 1 })] }

/-- `c3s1` after a second contribution at time 1900800 (week 4, a 21-day
gap): the code increments the streak to 2. -/
def c3s2 : SCState :=
  { admin := some 0, next_challenge_id := 2,
    challenges := [(1,
      { id := 1, creator := 0, name := "save", description := "weekly",
        goal_amount := 1000000, weekly_amount := 10, current_amount := 20,
        participants := [2], created_at := 0, deadline := 10000000, is_active := true,
        min_weekly_required := false, allow_early_withdrawal := false })],
    contributions := [(1,
      [{ contributor := 2, amount := 10, timestamp := 86400, week_number := 1 },
       { contributor := 2, amount := 10, timestamp := 1900800, week_number := 4 }])],
    stats := [((1, 2),
      { total_contributed := 20, contribution_count := 2,
        last_contribution := 1900800, current_streak := 2 })] }

end SavingsChallengeC

namespace SavingsTracker

/-- An already-reached milestone used by the monotonicity witness. -/
def msReached : Milestone :=
  { description := "half", target_amount := 50, reached := true,
    reached_at := 7, reward_bonus := 100 }

end SavingsTracker

/-! Generic lemmas about association-list storage. -/

theorem alookup_aset_self {α β : Type} [DecidableEq α] (l : List (α × β)) (a : α) (b : β) :
    alookup (aset l a b) a = some b := by
  induction l with
  | nil => simp [aset, alookup]
  | cons kv rest ih =>
    obtain ⟨k, v⟩ := kv
    by_cases h : k = a
    · simp [aset, h, alookup]
    · simp [aset, h, alookup, ih]

theorem alookup_aset_ne {α β : Type} [DecidableEq α] (l : List (α × β)) (a a' : α) (b : β)
    (h : a' ≠ a) : alookup (aset l a b) a' = alookup l a' := by
  induction l with
  | nil => simp [aset, alookup, Ne.symm h]
  | cons kv rest ih =>
    obtain ⟨k, v⟩ := kv
    by_cases hk : k = a
    · subst hk
      simp [aset, alookup, Ne.symm h]
    · by_cases hk' : k = a'
      · simp [aset, hk, alookup, hk', h, ih]
      · simp [aset, hk, alookup, hk', ih]

theorem alookup_mem {α β : Type} [DecidableEq α] (l : List (α × β)) (a : α) (b : β)
    (h : alookup l a = some b) : (a, b) ∈ l := by
  induction l with
  | nil => simp [alookup] at h
  | cons kv rest ih =>
    obtain ⟨k, v⟩ := kv
    by_cases hk : k = a
    · subst hk
      simp [alookup] at h
      subst h
      exact List.mem_cons_self _ _
    · simp [alookup, hk] at h
      exact List.mem_cons_of_mem _ (ih h)

theorem mem_aset {α β : Type} [DecidableEq α] (l : List (α × β)) (a : α) (b : β) (e : α × β)
    (h : e ∈ aset l a b) : e ∈ l ∨ e = (a, b) := by
  induction l with
  | nil => simp [aset] at h; exact Or.inr h
  | cons kv rest ih =>
    obtain ⟨k, v⟩ := kv
    by_cases hk : k = a
    · simp [aset, hk] at h
      rcases h with h | h
      · exact Or.inr (by simp [h])
      · exact Or.inl (List.mem_cons_of_mem _ h)
    · simp [aset, hk] at h
      rcases h with h | h
      · exact Or.inl (by simp [h])
      · rcases ih h with h' | h'
        · exact Or.inl (List.mem_cons_of_mem _ h')
        · exact Or.inr h'

namespace CrossBorderYield

/-- C1: the code has no zero-deposit guard in `distribute_yield`.  On pool 1
of `c1s0`, whose `total_deposited` is 0 and whose participant set is empty,
the call succeeds (it does not fail with any error, and `YieldError` has no
`ArithmeticError` variant at all) and the pool record is modified:
`total_yield_earned` is bumped by the distributed amount. -/
theorem c1_distribute_zero_pool_succeeds :
    poolEx.total_deposited = 0 ∧
    distribute_yield 0 1 5 c1s0 = DistResult.ok c1s1 ∧
    (alookup c1s1.pools 1).map YieldPool.total_yield_earned = some 5 :=
  ⟨rfl, rfl, rfl⟩

end CrossBorderYield

namespace SavingsChallengeC

/-- C3: code behaviour at the failing input.  Participant 2 contributes at
time 86400 (week 1) and again at time 1900800 (week 4, a 21-day gap, far
beyond the 8-day grace window), yet the stored streak is 2, not 1: the code
overwrites `last_contribution` with `now` before the window test reads it,
so the test always sees a gap of 0. -/
theorem c3_streak_increments_after_gap :
    contribute 1 2 10 86400 c3s0 = Except.ok c3s1 ∧
    contribute 1 2 10 1900800 c3s1 = Except.ok c3s2 ∧
    (alookup c3s2.stats (1, 2)).map ParticipantStats.current_streak = some 2 :=
  ⟨rfl, rfl, rfl⟩

/-- C5 counterexample: on `scEx0` a participant successfully finalizes the
expired challenge (reaching `scEx1`, inactive), after which the admin's
`set_challenge_active(…, true)` succeeds and sets `is_active` back to
`true` — the finalized challenge returns to the Active state, refuting the
claim that no subsequent operation reactivates it. -/
theorem c5_admin_reactivates_finalized :
    finalize_challenge 1 2 100 scEx0 = Except.ok scEx1 ∧
    (alookup scEx1.challenges 1).map SChallenge.is_active = some false ∧
    set_challenge_active 1 true 0 scEx1 = Except.ok scEx0 ∧
    (alookup scEx0.challenges 1).map SChallenge.is_active = some true :=
  ⟨rfl, rfl, rfl, rfl⟩

end SavingsChallengeC

namespace SavingsTracker

/-- C9: milestone evaluation is write-once.  In both the user-scoped and the
group-scoped evaluation, a milestone whose `reached` flag is already true is
written back entirely unchanged (flag and `reached_at` timestamp included);
only still-unreached milestones can be modified. -/
theorem c9_milestones_write_once :
    (∀ (now : Nat) (current_amount : Int) (milestones : List Milestone) (i : Nat)
        (m : Milestone), milestones[i]? = some m → m.reached = true →
        (check_user_milestones now current_amount milestones)[i]? = some m) ∧
    (∀ (now : Nat) (participants : List Nat) (progress : List (Nat × UserProgress))
        (milestones : List Milestone) (i : Nat) (m : Milestone),
        milestones[i]? = some m → m.reached = true →
        (check_group_milestones now participants progress milestones)[i]? = some m) := by
  constructor
  · intro now amt ms i m hm hr
    simp only [check_user_milestones, List.getElem?_map, hm, Option.map_some']
    simp [hr]
  · intro now parts prog ms i m hm hr
    simp only [check_group_milestones, List.getElem?_map, hm, Option.map_some']
    simp [hr]

/-- C9 witness: a concrete already-reached milestone survives both
evaluation passes untouched. -/
theorem c9_milestones_write_once_witness :
    [msReached][0]? = some msReached ∧ msReached.reached = true ∧
    (check_user_milestones 9 1000 [msReached])[0]? = some msReached ∧
    (check_group_milestones 9 [] [] [msReached])[0]? = some msReached :=
  ⟨rfl, rfl, c9_milestones_write_once.1 9 1000 [msReached] 0 msReached rfl rfl,
   c9_milestones_write_once.2 9 [] [] [msReached] 0 msReached rfl rfl⟩

end SavingsTracker

namespace RewardToken

/-- C8: `calculate_reward` returns 0 below the configured minimum
contribution, and with the default configuration a 60-unit weekly
contribution earns the 10-unit base reward scaled by the 1.1 tier factor
(11000 basis points for contributions of at least 50 units), i.e. 11 units
(all amounts in stroops, 7 decimals). -/
theorem c8_calculate_reward_minimum_and_tier :
    (∀ (config : RewardConfig) (contribution_amount : Int) (reward_type : RewardType)
        (streak_weeks : Nat),
        contribution_amount < config.min_contribution_for_reward →
        calculate_reward (some config) contribution_amount reward_type streak_weeks =
          Except.ok 0) ∧
    calculate_reward (some default_config) 600000000 RewardType.WeeklyContribution 0 =
      Except.ok 110000000 := by
  constructor
  · intro config amt ty wk h
    simp only [calculate_reward]
    rw [if_pos h]
  · rfl

/-- C8 witness: a 5-unit contribution is below the 10-unit default minimum
and earns nothing. -/
theorem c8_calculate_reward_minimum_and_tier_witness :
    (50000000 : Int) < default_config.min_contribution_for_reward ∧
    calculate_reward (some default_config) 50000000 RewardType.WeeklyContribution 3 =
      Except.ok 0 :=
  ⟨by decide,
   c8_calculate_reward_minimum_and_tier.1 default_config 50000000
     RewardType.WeeklyContribution 3 (by decide)⟩

/-- Writing one balance changes the stored sum by the difference with the
previously stored (or defaulted) value. -/
theorem sumBalances_aset (balances : Balances) (u : Nat) (v : Int) :
    sumBalances (aset balances u v) =
      sumBalances balances - (alookup balances u).getD 0 + v := by
  induction balances with
  | nil => simp [aset, sumBalances, alookup]
  | cons kv rest ih =>
    obtain ⟨k, b⟩ := kv
    by_cases hk : k = u
    · simp only [aset, if_pos hk, sumBalances, alookup, hk, if_pos rfl]
      simp
      ring
    · simp only [aset, if_neg hk, sumBalances, alookup, if_neg hk, ih]
      ring

/-- C10: a self-transfer of a positive amount within the sender's balance
succeeds and leaves the sender with the old balance plus the amount: the
credit write uses the balance read before the debit write and overwrites
it.  The total of all stored balances grows by the amount, so balance is
not conserved. -/
theorem c10_self_transfer_inflates_balance (balances : Balances) (u : Nat) (amount : Int)
    (hpos : 0 < amount) (hle : amount ≤ balance balances u) :
    ∃ balances', transfer balances u u amount = Except.ok balances' ∧
      balance balances' u = balance balances u + amount ∧
      sumBalances balances' = sumBalances balances + amount := by
  refine ⟨aset (aset balances u (balance balances u - amount)) u
    (balance balances u + amount), ?_, ?_, ?_⟩
  · simp only [transfer]
    rw [if_neg (by omega), if_neg (by omega), if_neg (by omega)]
  · simp [balance, alookup_aset_self]
  · rw [sumBalances_aset, sumBalances_aset, alookup_aset_self]
    simp [balance]
    ring

/-- C10 witness: with the single stored balance 10 for address 1, a
self-transfer of 4 yields stored balance 14 and total 14. -/
theorem c10_self_transfer_inflates_balance_witness :
    (0 : Int) < 4 ∧ (4 : Int) ≤ balance [(1, 10)] 1 ∧
    ∃ balances', transfer [(1, 10)] 1 1 4 = Except.ok balances' ∧
      balance balances' 1 = balance [(1, 10)] 1 + 4 ∧
      sumBalances balances' = sumBalances [(1, 10)] + 4 :=
  ⟨by decide, by decide,
   c10_self_transfer_inflates_balance [(1, 10)] 1 4 (by decide) (by decide)⟩

end RewardToken

namespace CrossBorderYield

/-- C4 counterexample: user 7 deposits 10 into pool 1 twice; after the
second successful deposit the user's stored vector holds two distinct
position records for pool 1, refuting the at-most-one-position-per-pool
claim — the second deposit did not extend the first record's principal. -/
theorem c4_second_deposit_creates_second_position :
    deposit_to_pool 7 1 10 false 0 c1s0 = Except.ok c4s1 ∧
    deposit_to_pool 7 1 10 false 0 c4s1 = Except.ok c4s2 ∧
    lookupPos c4s2.positions 7 = [depositPosEx, depositPosEx] ∧
    depositPosEx.pool_id = 1 :=
  ⟨rfl, rfl, rfl, rfl⟩

/-- C4 amended: every successful `deposit_to_pool` appends a fresh
`YieldPosition` record to the user's position vector (principal equal to the
deposited amount), whether or not the user already holds a position in the
pool; existing records are never extended. -/
theorem c4_deposit_appends_new_position (user pool_id : Nat) (amount : Int)
    (auto_compound : Bool) (now : Nat) (s s' : YState)
    (h : deposit_to_pool user pool_id amount auto_compound now s = Except.ok s') :
    ∃ pool, alookup s.pools pool_id = some pool ∧
      lookupPos s'.positions user = lookupPos s.positions user ++
        [{ user := user, pool_id := pool_id, principal := amount, yield_earned := 0,
           deposit_timestamp := now, last_claim_timestamp := now,
           lock_until := now + pool.lock_duration, auto_compound := auto_compound }] := by
  cases hp : alookup s.pools pool_id with
  | none =>
    simp only [deposit_to_pool, hp] at h
    exact absurd h (by simp)
  | some pool =>
    simp only [deposit_to_pool, hp] at h
    refine ⟨pool, rfl, ?_⟩
    by_cases h1 : pool.is_active = false
    · rw [if_pos h1] at h; exact absurd h (by simp)
    · rw [if_neg h1] at h
      by_cases h2 : amount < pool.min_deposit
      · rw [if_pos h2] at h; exact absurd h (by simp)
      · rw [if_neg h2] at h
        by_cases h3 : pool.max_deposit < amount
        · rw [if_pos h3] at h; exact absurd h (by simp)
        · rw [if_neg h3] at h
          simp only [Except.ok.injEq] at h
          rw [← h]
          simp [lookupPos, alookup_aset_self]

/-- C4 witness: the appended-record law instantiated on the first deposit of
the counterexample trace. -/
theorem c4_deposit_appends_new_position_witness :
    ∃ pool, alookup c1s0.pools 1 = some pool ∧
      lookupPos c4s1.positions 7 = lookupPos c1s0.positions 7 ++
        [{ user := 7, pool_id := 1, principal := 10, yield_earned := 0,
           deposit_timestamp := 0, last_claim_timestamp := 0,
           lock_until := 0 + pool.lock_duration, auto_compound := false }] :=
  c4_deposit_appends_new_position 7 1 10 false 0 c1s0 c4s1 rfl

/-- C7 counterexample: with inconsistent bounds `min_deposit = 5 >
max_deposit = 1` the admin's `create_yield_pool` call does not fail with any
validation error (no `ValidationError` variant exists in `YieldError`): it
succeeds, stores the pool with the inverted bounds and increments the pool
counter. -/
theorem c7_create_pool_accepts_inverted_bounds :
    create_yield_pool 0 "p" "USD" "NGN" "US-NG" 500 5 1 0 "MG" (initializeState 0) =
      Except.ok (1, c7s1) ∧
    alookup c7s1.pools 1 = some c7pool ∧
    c7pool.min_deposit = 5 ∧ c7pool.max_deposit = 1 ∧
    c7s1.next_pool_id = (initializeState 0).next_pool_id + 1 :=
  ⟨rfl, rfl, rfl, rfl, rfl⟩

/-- C7 amended: `create_yield_pool` performs no validation of its deposit
bounds.  Every call whose caller matches the stored admin succeeds — for
arbitrary `min_deposit` and `max_deposit`, including `min_deposit >
max_deposit` and non-positive values — storing the pool exactly as given and
incrementing the pool-id counter. -/
theorem c7_create_pool_no_validation (caller : Nat) (name bc tc cor : String)
    (apy : Nat) (min_deposit max_deposit : Int) (lock : Nat) (mgid : String) (s : YState)
    (hadmin : s.admin = some caller) :
    create_yield_pool caller name bc tc cor apy min_deposit max_deposit lock mgid s =
      Except.ok (s.next_pool_id,
        { s with
          pools := aset s.pools s.next_pool_id
                     (createdPool s.next_pool_id name bc tc cor apy min_deposit max_deposit lock mgid),
          next_pool_id := s.next_pool_id + 1 }) := by
  simp only [create_yield_pool, hadmin]
  rw [if_neg (by simp)]
  rfl

/-- C7 witness: the no-validation law instantiated at the inverted-bounds
call of the counterexample. -/
theorem c7_create_pool_no_validation_witness :
    create_yield_pool 0 "p" "USD" "NGN" "US-NG" 500 5 1 0 "MG" (initializeState 0) =
      Except.ok ((initializeState 0).next_pool_id,
        { initializeState 0 with
          pools := aset (initializeState 0).pools (initializeState 0).next_pool_id
                     (createdPool (initializeState 0).next_pool_id "p" "USD" "NGN" "US-NG" 500 5 1 0 "MG"),
          next_pool_id := (initializeState 0).next_pool_id + 1 }) :=
  c7_create_pool_no_validation 0 "p" "USD" "NGN" "US-NG" 500 5 1 0 "MG"
    (initializeState 0) rfl

end CrossBorderYield

namespace SavingsChallengeC

/-- C5 amended: once `finalize_challenge` succeeds the challenge is
inactive, and (a) every later `finalize_challenge` call by the creator or a
participant fails with `AlreadyFinalized`, while (b) among the mutating
operations on an existing challenge (`contribute`, `finalize_challenge`,
`set_challenge_active`), the only one that can turn the `is_active` flag of
an inactive challenge back to `true` is the admin's
`set_challenge_active(…, active := true)`. -/
theorem c5_finalized_terminal_except_set_active :
    (∀ (s : SCState) (cid fzr now : Nat) (ch : SChallenge),
        alookup s.challenges cid = some ch → ch.is_active = false →
        (ch.creator = fzr ∨ ch.participants.contains fzr = true) →
        finalize_challenge cid fzr now s = Except.error SavingsError.AlreadyFinalized) ∧
    (∀ (op : SCOp) (s s' : SCState) (cid : Nat) (ch ch' : SChallenge),
        scStep op s = Except.ok s' →
        alookup s.challenges cid = some ch → ch.is_active = false →
        alookup s'.challenges cid = some ch' → ch'.is_active = true →
        ∃ caller, op = SCOp.set_active cid true caller) := by
  constructor
  · intro s cid fzr now ch hch hin hauth
    have hcond : ¬ (ch.creator ≠ fzr ∧ ch.participants.contains fzr = false) := by
      rcases hauth with h | h
      · intro hc; exact hc.1 h
      · intro hc; rw [h] at hc; exact absurd hc.2 (by simp)
    simp only [finalize_challenge, hch]
    rw [if_neg hcond, if_pos hin]
  · intro op s s' cid ch ch' hstep hch hin hch' hact
    cases op with
    | contribute cid2 u amt now =>
      exfalso
      simp only [scStep, contribute] at hstep
      by_cases ha : amt ≤ 0
      · rw [if_pos ha] at hstep; exact absurd hstep (by simp)
      · rw [if_neg ha] at hstep
        cases hc2 : alookup s.challenges cid2 with
        | none => simp only [hc2] at hstep; exact absurd hstep (by simp)
        | some ch2 =>
          simp only [hc2] at hstep
          by_cases hia : ch2.is_active = false
          · rw [if_pos hia] at hstep; exact absurd hstep (by simp)
          · rw [if_neg hia] at hstep
            by_cases hdl : ch2.deadline < now
            · rw [if_pos hdl] at hstep; exact absurd hstep (by simp)
            · rw [if_neg hdl] at hstep
              by_cases hpart : ch2.participants.contains u = false
              · rw [if_pos hpart] at hstep; exact absurd hstep (by simp)
              · rw [if_neg hpart] at hstep
                simp only [Except.ok.injEq] at hstep
                subst hstep
                by_cases hcc : cid = cid2
                · subst hcc
                  rw [hch] at hc2
                  injection hc2 with h9
                  rw [← h9] at hia
                  exact hia hin
                · rw [alookup_aset_ne _ _ _ _ hcc, hch] at hch'
                  injection hch' with h9
                  rw [← h9, hin] at hact
                  exact absurd hact (by simp)
    | finalize cid2 f now =>
      exfalso
      simp only [scStep, finalize_challenge] at hstep
      cases hc2 : alookup s.challenges cid2 with
      | none => simp only [hc2] at hstep; exact absurd hstep (by simp)
      | some ch2 =>
        simp only [hc2] at hstep
        by_cases hauth : ch2.creator ≠ f ∧ ch2.participants.contains f = false
        · rw [if_pos hauth] at hstep; exact absurd hstep (by simp)
        · rw [if_neg hauth] at hstep
          by_cases hia : ch2.is_active = false
          · rw [if_pos hia] at hstep; exact absurd hstep (by simp)
          · rw [if_neg hia] at hstep
            by_cases hgl : ¬ ch2.goal_amount ≤ ch2.current_amount ∧ ¬ ch2.deadline < now
            · rw [if_pos hgl] at hstep; exact absurd hstep (by simp)
            · rw [if_neg hgl] at hstep
              simp only [Except.ok.injEq] at hstep
              subst hstep
              by_cases hcc : cid = cid2
              · subst hcc
                rw [alookup_aset_self] at hch'
                injection hch' with h9
                rw [← h9] at hact
                exact absurd hact (by simp)
              · rw [alookup_aset_ne _ _ _ _ hcc, hch] at hch'
                injection hch' with h9
                rw [← h9, hin] at hact
                exact absurd hact (by simp)
    | set_active cid2 b caller =>
      simp only [scStep, set_challenge_active] at hstep
      cases hadm : s.admin with
      | none => simp only [hadm] at hstep; exact absurd hstep (by simp)
      | some a =>
        simp only [hadm] at hstep
        by_cases hca : caller ≠ a
        · rw [if_pos hca] at hstep; exact absurd hstep (by simp)
        · rw [if_neg hca] at hstep
          cases hc2 : alookup s.challenges cid2 with
          | none => simp only [hc2] at hstep; exact absurd hstep (by simp)
          | some ch2 =>
            simp only [hc2] at hstep
            simp only [Except.ok.injEq] at hstep
            subst hstep
            by_cases hcc : cid = cid2
            · subst hcc
              rw [alookup_aset_self] at hch'
              injection hch' with h9
              rw [← h9] at hact
              simp only at hact
              refine ⟨caller, ?_⟩
              rw [hact]
            · exfalso
              rw [alookup_aset_ne _ _ _ _ hcc, hch] at hch'
              injection hch' with h9
              rw [← h9, hin] at hact
              exact absurd hact (by simp)

/-- C5 witness: on the finalized state `scEx1`, participant 2's second
finalize attempt fails with `AlreadyFinalized`; and the reactivating
operation of the counterexample trace is indeed a `set_challenge_active`
with `active = true`. -/
theorem c5_finalized_terminal_except_set_active_witness :
    finalize_challenge 1 2 100 scEx1 = Except.error SavingsError.AlreadyFinalized ∧
    ∃ caller, SCOp.set_active 1 true 0 = SCOp.set_active 1 true caller :=
  ⟨c5_finalized_terminal_except_set_active.1 scEx1 1 2 100
     ⟨1, 0, "trip", "fund", 200, 10, 100, [2], 0, 50, false, false, false⟩
     rfl rfl (Or.inr rfl),
   c5_finalized_terminal_except_set_active.2 (SCOp.set_active 1 true 0) scEx1 scEx0 1
     ⟨1, 0, "trip", "fund", 200, 10, 100, [2], 0, 50, false, false, false⟩
     ⟨1, 0, "trip", "fund", 200, 10, 100, [2], 0, 50, true, false, false⟩
     rfl rfl rfl rfl rfl⟩

end SavingsChallengeC

namespace CrossBorderYield

theorem sumPosList_append (f : YieldPosition → Int) (pid : Nat)
    (l1 l2 : List YieldPosition) :
    sumPosList f pid (l1 ++ l2) = sumPosList f pid l1 + sumPosList f pid l2 := by
  induction l1 with
  | nil => simp [sumPosList]
  | cons p rest ih =>
    show (if p.pool_id = pid then f p else 0) + sumPosList f pid (rest ++ l2) =
      (if p.pool_id = pid then f p else 0) + sumPosList f pid rest + sumPosList f pid l2
    rw [ih]
    ring

theorem sumPosStore_aset (f : YieldPosition → Int) (pid : Nat) (store : PosStore)
    (u : Nat) (l : List YieldPosition) :
    sumPosStore f pid (aset store u l) =
      sumPosStore f pid store - sumPosList f pid (lookupPos store u) + sumPosList f pid l := by
  induction store with
  | nil => simp [aset, sumPosStore, lookupPos, alookup, sumPosList]
  | cons kv rest ih =>
    obtain ⟨k, v⟩ := kv
    by_cases hk : k = u
    · subst hk
      simp [aset, sumPosStore, lookupPos, alookup]
      ring
    · simp only [aset, if_neg hk, sumPosStore, lookupPos, alookup, if_neg hk, ih]
      have : lookupPos rest u = (alookup rest u).getD [] := rfl
      rw [← this]
      ring

theorem sumPosList_zero (f : YieldPosition → Int) (pid : Nat) (l : List YieldPosition)
    (h : ∀ p ∈ l, p.pool_id ≠ pid) : sumPosList f pid l = 0 := by
  induction l with
  | nil => rfl
  | cons p rest ih =>
    simp only [sumPosList, if_neg (h p (List.mem_cons_self p rest))]
    rw [ih (fun q hq => h q (List.mem_cons_of_mem _ hq))]
    ring

theorem sumPosStore_zero_of_ge (f : YieldPosition → Int) (n pid : Nat) (store : PosStore)
    (h : StoreIdsLt n store) (hge : n ≤ pid) : sumPosStore f pid store = 0 := by
  induction store with
  | nil => rfl
  | cons e rest ih =>
    obtain ⟨k, v⟩ := e
    have h1 : sumPosList f pid v = 0 :=
      sumPosList_zero f pid v
        (fun p hp => Nat.ne_of_lt (Nat.lt_of_lt_of_le (h (k, v) (List.mem_cons_self _ _) p hp) hge))
    have h2 : sumPosStore f pid rest = 0 :=
      ih (fun e he p hp => h e (List.mem_cons_of_mem _ he) p hp)
    simp only [sumPosStore, h1, h2]
    ring

theorem lookupPos_lt (n : Nat) (store : PosStore) (u : Nat)
    (h : StoreIdsLt n store) : ∀ p ∈ lookupPos store u, p.pool_id < n := by
  cases halo : alookup store u with
  | none => simp [lookupPos, halo]
  | some v =>
    intro p hp
    simp only [lookupPos, halo, Option.getD_some] at hp
    exact h (u, v) (alookup_mem store u v halo) p hp

theorem StoreIdsLt_aset (n : Nat) (store : PosStore) (u : Nat) (l : List YieldPosition)
    (hst : StoreIdsLt n store) (hl : ∀ p ∈ l, p.pool_id < n) :
    StoreIdsLt n (aset store u l) := by
  intro e he p hp
  rcases mem_aset store u l e he with h1 | h1
  · exact hst e h1 p hp
  · subst h1
    exact hl p hp

theorem StoreIdsLt_mono (n m : Nat) (store : PosStore) (h : StoreIdsLt n store)
    (hnm : n ≤ m) : StoreIdsLt m store :=
  fun e he p hp => Nat.lt_of_lt_of_le (h e he p hp) hnm

theorem distribPositions_spec (pid : Nat) (Y : Int) :
    ∀ (l : List YieldPosition) (td td' : Int) (l' : List YieldPosition),
    distribPositions pid Y td l = some (td', l') →
    td' - td = sumPosList (fun p => p.principal) pid l' -
      sumPosList (fun p => p.principal) pid l ∧
    (∀ (f : YieldPosition → Int) (q : Nat), q ≠ pid →
      sumPosList f q l' = sumPosList f q l) ∧
    (∀ p' ∈ l', ∃ p ∈ l, p'.pool_id = p.pool_id) := by
  intro l
  induction l with
  | nil =>
    intro td td' l' h
    simp only [distribPositions, Option.some.injEq, Prod.mk.injEq] at h
    obtain ⟨h1, h2⟩ := h
    subst h1
    subst h2
    exact ⟨by ring, fun f q hq => rfl, by simp⟩
  | cons pos rest ih =>
    intro td td' l' h
    simp only [distribPositions] at h
    by_cases hpid : pos.pool_id = pid
    · rw [if_pos hpid] at h
      by_cases htd : td = 0
      · rw [if_pos htd] at h
        exact absurd h (by simp)
      · rw [if_neg htd] at h
        by_cases hac : pos.auto_compound = true
        · rw [if_pos hac] at h
          cases hrec : distribPositions pid Y (td + Int.tdiv (pos.principal * Y) td) rest with
          | none =>
            rw [hrec] at h
            exact absurd h (by simp)
          | some pr =>
            obtain ⟨td2, rest'⟩ := pr
            rw [hrec] at h
            simp only [Option.some.injEq, Prod.mk.injEq] at h
            obtain ⟨htd2, hl'⟩ := h
            subst htd2
            subst hl'
            obtain ⟨ih1, ih2, ih3⟩ :=
              ih (td + Int.tdiv (pos.principal * Y) td) td2 rest' hrec
            refine ⟨?_, ?_, ?_⟩
            · simp only [sumPosList, hpid, eq_self_iff_true, if_true]
              linarith [ih1]
            · intro f q hq
              simp only [sumPosList, hpid]
              rw [if_neg (Ne.symm hq), if_neg (Ne.symm hq)]
              rw [ih2 f q hq]
            · intro p' hp'
              rcases List.mem_cons.mp hp' with h1 | h1
              · exact ⟨pos, List.mem_cons_self _ _, by rw [h1]⟩
              · obtain ⟨p, hp, he⟩ := ih3 p' h1
                exact ⟨p, List.mem_cons_of_mem _ hp, he⟩
        · rw [if_neg hac] at h
          cases hrec : distribPositions pid Y td rest with
          | none =>
            rw [hrec] at h
            exact absurd h (by simp)
          | some pr =>
            obtain ⟨td2, rest'⟩ := pr
            rw [hrec] at h
            simp only [Option.some.injEq, Prod.mk.injEq] at h
            obtain ⟨htd2, hl'⟩ := h
            subst htd2
            subst hl'
            obtain ⟨ih1, ih2, ih3⟩ := ih td td2 rest' hrec
            refine ⟨?_, ?_, ?_⟩
            · simp only [sumPosList, hpid, eq_self_iff_true, if_true]
              linarith [ih1]
            · intro f q hq
              simp only [sumPosList, hpid]
              rw [if_neg (Ne.symm hq), if_neg (Ne.symm hq)]
              rw [ih2 f q hq]
            · intro p' hp'
              rcases List.mem_cons.mp hp' with h1 | h1
              · exact ⟨pos, List.mem_cons_self _ _, by rw [h1]⟩
              · obtain ⟨p, hp, he⟩ := ih3 p' h1
                exact ⟨p, List.mem_cons_of_mem _ hp, he⟩
    · rw [if_neg hpid] at h
      cases hrec : distribPositions pid Y td rest with
      | none =>
        rw [hrec] at h
        exact absurd h (by simp)
      | some pr =>
        obtain ⟨td2, rest'⟩ := pr
        rw [hrec] at h
        simp only [Option.some.injEq, Prod.mk.injEq] at h
        obtain ⟨htd2, hl'⟩ := h
        subst htd2
        subst hl'
        obtain ⟨ih1, ih2, ih3⟩ := ih td td2 rest' hrec
        refine ⟨?_, ?_, ?_⟩
        · simp only [sumPosList, if_neg hpid]
          linarith [ih1]
        · intro f q hq
          simp only [sumPosList]
          rw [ih2 f q hq]
        · intro p' hp'
          rcases List.mem_cons.mp hp' with h1 | h1
          · exact ⟨pos, List.mem_cons_self _ _, by rw [h1]⟩
          · obtain ⟨p, hp, he⟩ := ih3 p' h1
            exact ⟨p, List.mem_cons_of_mem _ hp, he⟩

theorem distribLoop_spec (pid : Nat) (Y : Int) :
    ∀ (users : List Nat) (td : Int) (store : PosStore) (td' : Int) (store' : PosStore),
    distribLoop pid Y td users store = some (td', store') →
    td' - td = sumPosStore (fun p => p.principal) pid store' -
      sumPosStore (fun p => p.principal) pid store ∧
    (∀ (f : YieldPosition → Int) (q : Nat), q ≠ pid →
      sumPosStore f q store' = sumPosStore f q store) ∧
    (∀ n, StoreIdsLt n store → StoreIdsLt n store') := by
  intro users
  induction users with
  | nil =>
    intro td store td' store' h
    simp only [distribLoop, Option.some.injEq, Prod.mk.injEq] at h
    obtain ⟨h1, h2⟩ := h
    subst h1
    subst h2
    exact ⟨by ring, fun f q hq => rfl, fun n hn => hn⟩
  | cons u rest ih =>
    intro td store td' store' h
    simp only [distribLoop] at h
    cases hrec : distribPositions pid Y td (lookupPos store u) with
    | none =>
      rw [hrec] at h
      exact absurd h (by simp)
    | some pr =>
      obtain ⟨td1, ups'⟩ := pr
      rw [hrec] at h
      obtain ⟨p1, p2, p3⟩ := distribPositions_spec pid Y (lookupPos store u) td td1 ups' hrec
      obtain ⟨l1, l2, l3⟩ := ih td1 (aset store u ups') td' store' h
      refine ⟨?_, ?_, ?_⟩
      · rw [sumPosStore_aset] at l1
        linarith [l1, p1]
      · intro f q hq
        have hl := l2 f q hq
        rw [sumPosStore_aset, p2 f q hq] at hl
        linarith [hl]
      · intro n hn
        refine l3 n (StoreIdsLt_aset n store u ups' hn ?_)
        intro p hp
        obtain ⟨p0, hp0, he⟩ := p3 p hp
        rw [he]
        exact lookupPos_lt n store u hn p0 hp0

theorem inv_initializeState (admin : Nat) : Inv (initializeState admin) := by
  constructor
  · intro pid pool h
    simp [initializeState, alookup] at h
  · intro e he p hp
    simp [initializeState] at he

theorem inv_create {s : YState} (caller : Nat) (name bc tc cor : String) (apy : Nat)
    (min_d max_d : Int) (lock : Nat) (mgid : String) {pid : Nat} {s' : YState}
    (hinv : Inv s)
    (hc : create_yield_pool caller name bc tc cor apy min_d max_d lock mgid s =
      Except.ok (pid, s')) : Inv s' := by
  cases hadm : s.admin with
  | none =>
    simp only [create_yield_pool, hadm] at hc
    exact absurd hc (by simp)
  | some a =>
    simp only [create_yield_pool, hadm] at hc
    by_cases hca : caller ≠ a
    · rw [if_pos hca] at hc
      exact absurd hc (by simp)
    · rw [if_neg hca] at hc
      simp only [Except.ok.injEq, Prod.mk.injEq] at hc
      obtain ⟨hpid, hs'⟩ := hc
      subst hpid
      subst hs'
      constructor
      · intro q pool hq
        by_cases hqp : q = s.next_pool_id
        · subst hqp
          rw [alookup_aset_self] at hq
          injection hq with h9
          rw [← h9]
          exact ⟨(sumPosStore_zero_of_ge (fun p => p.principal) s.next_pool_id
            s.next_pool_id s.positions hinv.2 le_rfl).symm, Nat.lt_succ_self _⟩
        · rw [alookup_aset_ne _ _ _ _ hqp] at hq
          obtain ⟨h1, h2⟩ := hinv.1 q pool hq
          exact ⟨h1, Nat.lt_succ_of_lt h2⟩
      · exact StoreIdsLt_mono _ _ _ hinv.2 (Nat.le_succ _)

theorem inv_deposit {s : YState} (user pool_id : Nat) (amount : Int) (ac : Bool)
    (now : Nat) {s' : YState} (hinv : Inv s)
    (hd : deposit_to_pool user pool_id amount ac now s = Except.ok s') : Inv s' := by
  cases hp : alookup s.pools pool_id with
  | none =>
    simp only [deposit_to_pool, hp] at hd
    exact absurd hd (by simp)
  | some pool =>
    simp only [deposit_to_pool, hp] at hd
    by_cases h1 : pool.is_active = false
    · rw [if_pos h1] at hd
      exact absurd hd (by simp)
    · rw [if_neg h1] at hd
      by_cases h2 : amount < pool.min_deposit
      · rw [if_pos h2] at hd
        exact absurd hd (by simp)
      · rw [if_neg h2] at hd
        by_cases h3 : pool.max_deposit < amount
        · rw [if_pos h3] at hd
          exact absurd hd (by simp)
        · rw [if_neg h3] at hd
          simp only [Except.ok.injEq] at hd
          subst hd
          have hplt : pool_id < s.next_pool_id := (hinv.1 pool_id pool hp).2
          have hbase := (hinv.1 pool_id pool hp).1
          constructor
          · intro q pool' hq
            by_cases hqp : q = pool_id
            · subst hqp
              rw [alookup_aset_self] at hq
              injection hq with h9
              rw [← h9]
              refine ⟨?_, hplt⟩
              rw [sumPosStore_aset, sumPosList_append]
              simp only [sumPosList, eq_self_iff_true, if_true]
              linarith [hbase]
            · rw [alookup_aset_ne _ _ _ _ hqp] at hq
              obtain ⟨hb, hlt⟩ := hinv.1 q pool' hq
              refine ⟨?_, hlt⟩
              rw [sumPosStore_aset, sumPosList_append]
              have hne : ¬ (pool_id = q) := fun he => hqp he.symm
              simp only [sumPosList, if_neg hne]
              linarith [hb]
          · apply StoreIdsLt_aset _ _ _ _ hinv.2
            intro p hp2
            rcases List.mem_append.mp hp2 with hm | hm
            · exact lookupPos_lt _ _ _ hinv.2 p hm
            · simp only [List.mem_singleton] at hm
              rw [hm]
              exact hplt

theorem inv_distribute {s : YState} (caller pool_id : Nat) (total_yield : Int)
    {s' : YState} (hinv : Inv s)
    (hd : distribute_yield caller pool_id total_yield s = DistResult.ok s') : Inv s' := by
  cases hadm : s.admin with
  | none =>
    simp only [distribute_yield, hadm] at hd
    exact absurd hd (by simp)
  | some a =>
    simp only [distribute_yield, hadm] at hd
    by_cases hca : caller ≠ a
    · rw [if_pos hca] at hd
      exact absurd hd (by simp)
    · rw [if_neg hca] at hd
      cases hp : alookup s.pools pool_id with
      | none =>
        simp only [hp] at hd
        exact absurd hd (by simp)
      | some pool =>
        simp only [hp] at hd
        cases hloop : distribLoop pool_id total_yield pool.total_deposited
            pool.participants s.positions with
        | none =>
          rw [hloop] at hd
          exact absurd hd (by simp)
        | some pr =>
          obtain ⟨td', store'⟩ := pr
          rw [hloop] at hd
          simp only [DistResult.ok.injEq] at hd
          subst hd
          obtain ⟨l1, l2, l3⟩ := distribLoop_spec pool_id total_yield pool.participants
            pool.total_deposited s.positions td' store' hloop
          have hbase := hinv.1 pool_id pool hp
          constructor
          · intro q pool' hq
            by_cases hqp : q = pool_id
            · subst hqp
              rw [alookup_aset_self] at hq
              injection hq with h9
              rw [← h9]
              refine ⟨?_, hbase.2⟩
              have := hbase.1
              linarith [l1, this]
            · rw [alookup_aset_ne _ _ _ _ hqp] at hq
              obtain ⟨hb, hlt⟩ := hinv.1 q pool' hq
              refine ⟨?_, hlt⟩
              rw [l2 (fun p => p.principal) q hqp]
              exact hb
          · exact l3 _ hinv.2

theorem reach_inv (s : YState) (h : Reach s) : Inv s := by
  induction h with
  | init admin => exact inv_initializeState admin
  | create caller name bc tc cor apy min_d max_d lock mgid h hc ih =>
    exact inv_create caller name bc tc cor apy min_d max_d lock mgid ih hc
  | deposit user pool_id amount ac now h hd ih =>
    exact inv_deposit user pool_id amount ac now ih hd
  | distribute caller pool_id total_yield h hd ih =>
    exact inv_distribute caller pool_id total_yield ih hd

/-- C2: in every state reachable by initializing and then running any
sequence of successful `create_yield_pool`, `deposit_to_pool` and
`distribute_yield` calls, each stored pool's `total_deposited` equals the
sum of `principal` over all stored positions referencing that pool: a
deposit adds the amount to both sides, and an auto-compounded share is
added to the position's principal and the pool's total alike. -/
theorem c2_pool_total_eq_principal_sum (s : YState) (h : Reach s) (pid : Nat)
    (pool : YieldPool) (hp : alookup s.pools pid = some pool) :
    pool.total_deposited = sumPosStore (fun p => p.principal) pid s.positions :=
  ((reach_inv s h).1 pid pool hp).1

/-- C2 witness: along the concrete trace initialize, create pool 1, user 3
deposits 10, the stored pool total 10 equals the stored principal sum. -/
theorem c2_pool_total_eq_principal_sum_witness :
    ({ wpool with total_deposited := 10, participants := [3] } : YieldPool).total_deposited =
      sumPosStore (fun p => p.principal) 1 c2w2.positions :=
  c2_pool_total_eq_principal_sum c2w2
    (Reach.deposit 3 1 10 false 0
      (Reach.create 0 "w" "USD" "NGN" "US-NG" 500 1 1000 0 "MG" (Reach.init 0)
        (show create_yield_pool 0 "w" "USD" "NGN" "US-NG" 500 1 1000 0 "MG"
          (initializeState 0) = Except.ok (1, c2w1) from rfl))
      (show deposit_to_pool 3 1 10 false 0 c2w1 = Except.ok c2w2 from rfl))
    1 { wpool with total_deposited := 10, participants := [3] } rfl

theorem lookupPos_aset_ne (store : PosStore) (u v : Nat) (l : List YieldPosition)
    (h : v ≠ u) : lookupPos (aset store u l) v = lookupPos store v := by
  simp [lookupPos, alookup_aset_ne _ _ _ _ h]

theorem lookupPos_aset_self (store : PosStore) (u : Nat) (l : List YieldPosition) :
    lookupPos (aset store u l) u = l := by
  simp [lookupPos, alookup_aset_self]

theorem distribLoop_uniform (pid : Nat) (Y p : Int) (td : Int) (htd : td ≠ 0) :
    ∀ (users : List Nat) (store : PosStore), users.Nodup →
    (∀ u ∈ users, ∃ pos, lookupPos store u = [pos] ∧ pos.pool_id = pid ∧
      pos.principal = p ∧ pos.auto_compound = false) →
    ∃ store', distribLoop pid Y td users store = some (td, store') ∧
      sumPosStore (fun x => x.yield_earned) pid store' =
        sumPosStore (fun x => x.yield_earned) pid store +
          (users.length : Int) * Int.tdiv (p * Y) td := by
  intro users
  induction users with
  | nil =>
    intro store _ _
    refine ⟨store, by simp [distribLoop], ?_⟩
    simp
  | cons u rest ih =>
    intro store hnd hall
    obtain ⟨pos, hlk, hpid, hpr, hac⟩ := hall u (List.mem_cons_self _ _)
    have hnd' := List.nodup_cons.mp hnd
    have hstep : distribPositions pid Y td (lookupPos store u) =
        some (td, [{ pos with yield_earned := pos.yield_earned + Int.tdiv (p * Y) td }]) := by
      rw [hlk]
      simp only [distribPositions, if_pos hpid, if_neg htd, hac, Bool.false_eq_true,
        if_false, hpr]
    have hall' : ∀ v ∈ rest, ∃ q, lookupPos
        (aset store u [{ pos with yield_earned := pos.yield_earned + Int.tdiv (p * Y) td }]) v =
          [q] ∧ q.pool_id = pid ∧ q.principal = p ∧ q.auto_compound = false := by
      intro v hv
      have hvu : v ≠ u := fun he => hnd'.1 (he ▸ hv)
      rw [lookupPos_aset_ne _ _ _ _ hvu]
      exact hall v (List.mem_cons_of_mem _ hv)
    obtain ⟨store'', hloop, hsum⟩ := ih
      (aset store u [{ pos with yield_earned := pos.yield_earned + Int.tdiv (p * Y) td }])
      hnd'.2 hall'
    refine ⟨store'', ?_, ?_⟩
    · simp only [distribLoop, hstep]
      exact hloop
    · rw [hsum, sumPosStore_aset, hlk]
      simp only [sumPosList, if_pos hpid, List.length_cons]
      push_cast
      ring

theorem uniform_share_total (N p Y : Int) (hN : 0 < N) (hp : 0 < p) (hY : 0 ≤ Y) :
    N * Int.tdiv (p * Y) (N * p) = Y - Int.tmod Y N := by
  rw [Int.tdiv_eq_ediv (by positivity) (by positivity), Int.tmod_eq_emod hY hN.le]
  rw [show N * p = p * N by ring, Int.mul_ediv_mul_of_pos _ _ hp]
  have h4 := Int.ediv_add_emod Y N
  linarith

/-- C6: the rounding law for a uniform pool.  If pool `pid`'s participant
set consists of `N = users.length` distinct users, each holding exactly one
non-auto-compounding position of principal `p > 0` with the pool's
`total_deposited = N * p`, then for `total_yield ≥ 0` the admin's
`distribute_yield` succeeds and the total `yield_earned` credited over the
pool's positions grows by exactly `total_yield − (total_yield mod N)` — the
floor-division remainder is not distributed. -/
theorem c6_uniform_distribution_rounding (s : YState) (caller pid : Nat)
    (users : List Nat) (pool : YieldPool) (p total_yield : Int)
    (hadmin : s.admin = some caller)
    (hpool : alookup s.pools pid = some pool)
    (hparts : pool.participants = users)
    (hnd : users.Nodup) (hlen : 0 < users.length)
    (hp : 0 < p) (hY : 0 ≤ total_yield)
    (htd : pool.total_deposited = (users.length : Int) * p)
    (hpos : ∀ u ∈ users, ∃ pos, lookupPos s.positions u = [pos] ∧ pos.pool_id = pid ∧
      pos.principal = p ∧ pos.auto_compound = false) :
    ∃ s', distribute_yield caller pid total_yield s = DistResult.ok s' ∧
      sumPosStore (fun x => x.yield_earned) pid s'.positions =
        sumPosStore (fun x => x.yield_earned) pid s.positions +
          (total_yield - Int.tmod total_yield (users.length : Int)) := by
  have hNpos : (0 : Int) < (users.length : Int) := by exact_mod_cast hlen
  have htdne : ((users.length : Int) * p) ≠ 0 := (mul_pos hNpos hp).ne'
  obtain ⟨store', hloop, hsum⟩ :=
    distribLoop_uniform pid total_yield p ((users.length : Int) * p) htdne users
      s.positions hnd hpos
  refine ⟨{ s with positions := store', pools := aset s.pools pid ({ pool with total_deposited := (users.length : Int) * p, total_yield_earned := pool.total_yield_earned + total_yield }) }, ?_, ?_⟩
  · simp only [distribute_yield, hadmin, hpool]
    rw [if_neg (by simp), hparts, htd, hloop]
  · show sumPosStore (fun x => x.yield_earned) pid store' = _
    rw [hsum, uniform_share_total (users.length : Int) p total_yield hNpos hp hY]

/-- C6 witness: two participants with principal 5 each
(`total_deposited = 10`) and `total_yield = 7`: each receives
`(5·7) tdiv 10 = 3`, the credited total is `6 = 7 − (7 mod 2)`. -/
theorem c6_uniform_distribution_rounding_witness :
    ∃ s', distribute_yield 0 1 7 c6s0 = DistResult.ok s' ∧
      sumPosStore (fun x => x.yield_earned) 1 s'.positions =
        sumPosStore (fun x => x.yield_earned) 1 c6s0.positions +
          (7 - Int.tmod 7 (([1, 2] : List Nat).length : Int)) := by
  refine c6_uniform_distribution_rounding c6s0 0 1 [1, 2] uniformPool 5 7 rfl rfl rfl
    (by decide) (by decide) (by decide) (by decide) (by decide) ?_
  intro u hu
  simp only [List.mem_cons, List.not_mem_nil, or_false] at hu
  rcases hu with rfl | rfl
  · exact ⟨uniPos 1, rfl, rfl, rfl, rfl⟩
  · exact ⟨uniPos 2, rfl, rfl, rfl, rfl⟩

end CrossBorderYield
